import Mathlib

/-!
Verification of `scripts/suspend.py` (slurm-gcp node decommissioning).

The Python script is shallowly embedded: each function of the script becomes a
Lean definition over explicit state; the cloud API, the scheduler command-line
interface and the helpers living in `util.py` (which ships outside this tree)
are modelled as oracles/parameters, following the spec's description of those
collaborators.
-/

namespace Suspend

/-- Per-partition instance definition (`cfg.instance_defs[pid]`). The fields
are the ones `suspend.py` reads: `exclusive`, `regional_capacity`, `zone`,
`region`, `tpu_type` (truthy when non-empty), `enable_placement`,
`machine_type`. -/
structure InstanceDef where
  exclusive : Bool
  regional_capacity : Bool
  zone : String
  region : String
  tpu_type : String
  enable_placement : Bool
  machine_type : String
  deriving DecidableEq, Repr

/-- The slice of the YAML configuration that `suspend.py` uses, plus the
hostname classifier. `get_pid` is `util.get_pid` — util.py is not part of this
tree; the spec describes it as a pure, total function from hostname to
partition id (HostnameClassifier), so it is carried as an abstract function. -/
structure Cfg where
  project : String
  cluster_name : String
  instance_defs : String → InstanceDef
  get_pid : String → String

/-- A live instance as returned by the regional inventory lookup; `suspend.py`
only reads its `zone` URL (`instance['zone'].split('/')[-1]`). -/
structure Instance where
  zone : String
  deriving DecidableEq, Repr

/-- One entry added to a batch HTTP request:
`compute.instances().delete(project=…, zone=zone, instance=node_name)` keyed by
`request_id=node_name`. -/
structure DeleteReq where
  node : String
  zone : String
  deriving DecidableEq, Repr

/-- `TOT_REQ_CNT = 1000` (suspend.py line 42). -/
def TOT_REQ_CNT : Nat := 1000

/-- The global mutable accumulators of the script: `operations` (dict from
request id to operation response) and `retry_list`. -/
structure GState where
  operations : List (String × String)
  retry_list : List String
  deriving DecidableEq, Repr

/-- Python dict assignment `operations[request_id] = response`: replace the
value in place when the key is present, append otherwise. -/
def dictInsert (m : List (String × String)) (k v : String) : List (String × String) :=
  match m with
  | [] => [(k, v)]
  | (k', v') :: rest => if k' = k then (k, v) :: rest else (k', v') :: dictInsert rest k v

/-- Python `str.split(sep)` for a one-character separator, on character
lists: `"a-b-c".split('-') == ["a","b","c"]`, `"".split('-') == [""]`. -/
def splitOnChar (c : Char) : List Char → List (List Char)
  | [] => [[]]
  | a :: as =>
      if a = c then [] :: splitOnChar c as
      else
        match splitOnChar c as with
        | [] => [[a]]
        | g :: gs => (a :: g) :: gs

/-- Python `str.split(sep)` on strings. -/
def pySplit (s : String) (sep : Char) : List String :=
  (splitOnChar sep s.toList).map List.asString

/-- Does `needle` occur at the head of `hay`? -/
def listMatchHead : List Char → List Char → Bool
  | [], _ => true
  | _ :: _, [] => false
  | a :: as, b :: bs => a = b && listMatchHead as bs

/-- Does `needle` occur contiguously anywhere in `hay`? (Python's `in` on
strings, over the character lists.) -/
def listHasSub (needle : List Char) : List Char → Bool
  | [] => needle.isEmpty
  | c :: cs => listMatchHead needle (c :: cs) || listHasSub needle cs

/-- The throttling test of `delete_instances_cb`:
`"Rate Limit Exceeded" in str(exception) or "Quota exceeded" in str(exception)`. -/
def isThrottleErr (e : String) : Bool :=
  listHasSub "Rate Limit Exceeded".toList e.toList
    || listHasSub "Quota exceeded".toList e.toList

/-- `delete_instances_cb(request_id, response, exception)` (suspend.py lines
51–57), acting on the global state: on an exception, append the request id to
`retry_list` when the error text matches a throttling signature, otherwise
only log; on success record the operation response under the request id. -/
def delete_instances_cb (request_id response : String) (exception : Option String)
    (g : GState) : GState :=
  match exception with
  | some e =>
      if isThrottleErr e then
        { g with retry_list := g.retry_list ++ [request_id] }
      else
        g
  | none => { g with operations := dictInsert g.operations request_id response }

/-- State of the batch-construction loop in `delete_instances`: the completed
batches (`batch_list` up to `curr_batch`), the batch currently being filled
(`batch_list[curr_batch]`) and `req_cnt`. -/
structure BatchState where
  done : List (List DeleteReq)
  curr : List DeleteReq
  req_cnt : Nat
  deriving DecidableEq, Repr

/-- Adding one request in the loop body (suspend.py lines 92–104): when
`req_cnt >= TOT_REQ_CNT`, close the current batch and open a fresh one with
`req_cnt = 0`; then append the request to the current batch and bump
`req_cnt`. -/
def addReq (s : BatchState) (r : DeleteReq) : BatchState :=
  let s' := if TOT_REQ_CNT ≤ s.req_cnt then BatchState.mk (s.done ++ [s.curr]) [] 0 else s
  BatchState.mk s'.done (s'.curr ++ [r]) (s'.req_cnt + 1)

/-- One iteration of the `for node_name in node_list` loop of
`delete_instances` (suspend.py lines 75–104): skip exclusive nodes when the
invocation carries no job id; resolve the zone (for regional capacity via the
inventory `lookup`, skipping nodes that are already absent; otherwise the
static zone of the definition); then add the delete request. -/
def processNode (cfg : Cfg) (lookup : String → Option Instance) (jid : Option String)
    (s : BatchState) (node_name : String) : BatchState :=
  let d := cfg.instance_defs (cfg.get_pid node_name)
  if !jid.isSome && d.exclusive then s
  else
    match (if d.regional_capacity then
             (lookup node_name).map (fun inst => (pySplit inst.zone '/').getLastD "")
           else some d.zone) with
    | none => s
    | some zone => addReq s (DeleteReq.mk node_name zone)

/-- The batches built by `delete_instances` for a node list: the loop starts
from a single empty batch (`batch_list.insert(0, …)`), and at the end
`batch_list` is the completed batches followed by the batch under
construction. -/
def delete_instances_batches (cfg : Cfg) (lookup : String → Option Instance)
    (jid : Option String) (node_list : List String) : List (List DeleteReq) :=
  let s := node_list.foldl (processNode cfg lookup jid) (BatchState.mk [] [] 0)
  s.done ++ [s.curr]

/-- The node names that end up in some delete batch. -/
def batchedNodes (cfg : Cfg) (lookup : String → Option Instance)
    (jid : Option String) (node_list : List String) : List String :=
  ((delete_instances_batches cfg lookup jid node_list).flatten).map DeleteReq.node

/-- The guard deciding whether `delete_instances` issues a delete request for
a node: not skipped as exclusive-without-job-id, and not a regional node
missing from the live inventory. -/
def shouldDelete (cfg : Cfg) (lookup : String → Option Instance)
    (jid : Option String) (n : String) : Bool :=
  let d := cfg.instance_defs (cfg.get_pid n)
  !(!jid.isSome && d.exclusive) && !(d.regional_capacity && (lookup n).isNone)

/-- The zone a request for `n` carries when it is issued. -/
def zoneOf (cfg : Cfg) (lookup : String → Option Instance) (n : String) : String :=
  let d := cfg.instance_defs (cfg.get_pid n)
  if d.regional_capacity then
    match lookup n with
    | some inst => (pySplit inst.zone '/').getLastD ""
    | none => ""
  else d.zone

theorem processNode_eq (cfg : Cfg) (lookup : String → Option Instance)
    (jid : Option String) (s : BatchState) (n : String) :
    processNode cfg lookup jid s n =
      if shouldDelete cfg lookup jid n then addReq s (DeleteReq.mk n (zoneOf cfg lookup n))
      else s := by
  unfold processNode shouldDelete zoneOf
  cases hj : jid.isSome <;>
    cases hex : (cfg.instance_defs (cfg.get_pid n)).exclusive <;>
      cases hreg : (cfg.instance_defs (cfg.get_pid n)).regional_capacity <;>
        cases hlk : lookup n <;>
          simp [hj, hex, hreg, hlk]

/-- Invariant of the batch-construction loop: the batch under construction has
exactly `req_cnt` requests, `req_cnt` never exceeds the cap, and every closed
batch is within the cap. -/
def BatchInv (s : BatchState) : Prop :=
  s.curr.length = s.req_cnt ∧ s.req_cnt ≤ TOT_REQ_CNT ∧
    ∀ b ∈ s.done, b.length ≤ TOT_REQ_CNT

theorem addReq_inv (s : BatchState) (r : DeleteReq) (h : BatchInv s) :
    BatchInv (addReq s r) := by
  obtain ⟨hlen, hle, hdone⟩ := h
  unfold BatchInv addReq
  by_cases hc : TOT_REQ_CNT ≤ s.req_cnt
  · simp only [if_pos hc]
    refine ⟨by simp, by simp [TOT_REQ_CNT], ?_⟩
    intro b hb
    rcases List.mem_append.mp hb with hb | hb
    · exact hdone b hb
    · simp only [List.mem_singleton] at hb
      subst hb
      omega
  · simp only [if_neg hc]
    exact ⟨by simp [hlen], by omega, hdone⟩

theorem processNode_inv (cfg : Cfg) (lookup : String → Option Instance)
    (jid : Option String) (s : BatchState) (n : String) (h : BatchInv s) :
    BatchInv (processNode cfg lookup jid s n) := by
  rw [processNode_eq]
  by_cases hc : shouldDelete cfg lookup jid n = true
  · rw [if_pos hc]; exact addReq_inv s _ h
  · rw [if_neg hc]; exact h

theorem foldl_processNode_inv (cfg : Cfg) (lookup : String → Option Instance)
    (jid : Option String) :
    ∀ (l : List String) (s : BatchState), BatchInv s →
      BatchInv (l.foldl (processNode cfg lookup jid) s)
  | [], _, h => h
  | n :: l, s, h =>
      foldl_processNode_inv cfg lookup jid l (processNode cfg lookup jid s n)
        (processNode_inv cfg lookup jid s n h)

theorem addReq_flatten (s : BatchState) (r : DeleteReq) :
    ((addReq s r).done ++ [(addReq s r).curr]).flatten =
      (s.done ++ [s.curr]).flatten ++ [r] := by
  unfold addReq
  by_cases hc : TOT_REQ_CNT ≤ s.req_cnt <;> simp [hc]

theorem foldl_processNode_flatten (cfg : Cfg) (lookup : String → Option Instance)
    (jid : Option String) :
    ∀ (l : List String) (s : BatchState),
      ((((l.foldl (processNode cfg lookup jid) s).done
          ++ [(l.foldl (processNode cfg lookup jid) s).curr]).flatten).map DeleteReq.node)
        = ((s.done ++ [s.curr]).flatten).map DeleteReq.node
            ++ l.filter (shouldDelete cfg lookup jid)
  | [], s => by simp
  | n :: l, s => by
      rw [List.foldl_cons, foldl_processNode_flatten cfg lookup jid l, processNode_eq]
      by_cases hc : shouldDelete cfg lookup jid n = true
      · rw [if_pos hc, List.filter_cons_of_pos hc, addReq_flatten]
        simp
      · rw [if_neg hc, List.filter_cons_of_neg (by simpa using hc)]

/-- The nodes that end up in delete batches are exactly the input nodes that
pass the guard (`shouldDelete`), in order. -/
theorem batchedNodes_eq_filter (cfg : Cfg) (lookup : String → Option Instance)
    (jid : Option String) (node_list : List String) :
    batchedNodes cfg lookup jid node_list
      = node_list.filter (shouldDelete cfg lookup jid) := by
  unfold batchedNodes delete_instances_batches
  rw [foldl_processNode_flatten]
  simp

/-- A fixed concrete configuration for witnesses: partition id `px` is
exclusive, `pt` is TPU-backed, `pr` is regional, anything else is a plain
zonal on-demand definition; the partition id of a hostname is its second
dash-separated component. -/
def exclDef : InstanceDef :=
  InstanceDef.mk true false "us-central1-a" "us-central1" "" true "c2-standard-60"

def plainDef : InstanceDef :=
  InstanceDef.mk false false "us-central1-a" "us-central1" "" false "n1-standard-1"

def tpuDef : InstanceDef :=
  InstanceDef.mk false false "us-central1-a" "us-central1" "v2-8" false "n1-standard-1"

def regDef : InstanceDef :=
  InstanceDef.mk false true "us-central1-a" "us-central1" "" false "n1-standard-1"

def cfg0 : Cfg :=
  Cfg.mk "proj" "clus"
    (fun pid =>
      if pid = "px" then exclDef
      else if pid = "pt" then tpuDef
      else if pid = "pr" then regDef
      else plainDef)
    (fun n => (pySplit n '-').getD 1 "")

/-- An inventory lookup that finds nothing. -/
def lk0 : String → Option Instance := fun _ => none

/-- C4: for every input node list, no batch constructed by `delete_instances`
contains more than `TOT_REQ_CNT = 1000` requests; when the cap is reached a
new batch is started. -/
theorem batch_size_bounded (cfg : Cfg) (lookup : String → Option Instance)
    (jid : Option String) (node_list : List String) :
    ∀ b ∈ delete_instances_batches cfg lookup jid node_list,
      b.length ≤ TOT_REQ_CNT := by
  intro b hb
  unfold delete_instances_batches at hb
  have hinv := foldl_processNode_inv cfg lookup jid node_list (BatchState.mk [] [] 0)
    ⟨rfl, by simp [TOT_REQ_CNT], by simp⟩
  obtain ⟨hlen, hle, hdone⟩ := hinv
  rcases List.mem_append.mp hb with hb | hb
  · exact hdone b hb
  · simp only [List.mem_singleton] at hb
    subst hb
    omega

/-- Witness for C4 at a concrete input. -/
theorem batch_size_bounded_witness :
    [DeleteReq.mk "clus-p-0" "us-central1-a"]
        ∈ delete_instances_batches cfg0 lk0 none ["clus-p-0"]
      ∧ ([DeleteReq.mk "clus-p-0" "us-central1-a"] : List DeleteReq).length ≤ TOT_REQ_CNT :=
  ⟨by decide, batch_size_bounded cfg0 lk0 none ["clus-p-0"]
      [DeleteReq.mk "clus-p-0" "us-central1-a"] (by decide)⟩

/-- C9: on an invocation with no job id, a node whose partition definition is
exclusive is never placed in any delete batch. -/
theorem exclusive_skipped_without_job (cfg : Cfg) (lookup : String → Option Instance)
    (node_list : List String) (n : String)
    (hex : (cfg.instance_defs (cfg.get_pid n)).exclusive = true) :
    n ∉ batchedNodes cfg lookup none node_list := by
  rw [batchedNodes_eq_filter]
  intro hmem
  have hsd := List.of_mem_filter hmem
  unfold shouldDelete at hsd
  simp [hex] at hsd

/-- Witness for C9 at a concrete input. -/
theorem exclusive_skipped_without_job_witness :
    (cfg0.instance_defs (cfg0.get_pid "clus-px-0")).exclusive = true
      ∧ "clus-px-0" ∉ batchedNodes cfg0 lk0 none ["clus-px-0", "clus-p-1"] :=
  ⟨by decide, exclusive_skipped_without_job cfg0 lk0 ["clus-px-0", "clus-p-1"]
      "clus-px-0" (by decide)⟩

/-- Run the per-request callbacks of one batch (`ensure_execute(batch)` on the
success path): the callback fires once per request of the batch, with that
request's response/exception as delivered by the cloud API (`resp`/`exc`). -/
def run_batch_callbacks (resp : String → String) (exc : String → Option String)
    (b : List DeleteReq) (g : GState) : GState :=
  b.foldl (fun g r => delete_instances_cb r.node (resp r.node) (exc r.node) g) g

/-- The submission loop of `delete_instances` (suspend.py lines 106–112):
`try: for i, batch in enumerate(batch_list): ensure_execute(batch) …
except Exception: log.exception(…)`. `batchExn i = some e` models
`ensure_execute` raising on batch `i` (no callbacks fire for that batch); the
`try/except` sits outside the `for`, so the exception ends the loop. Returns
the final global state and the indices of the batches on which
`ensure_execute` was invoked. -/
def submit_batches (batchExn : Nat → Option String) (resp : String → String)
    (exc : String → Option String) :
    List (List DeleteReq) → Nat → GState → GState × List Nat
  | [], _, g => (g, [])
  | b :: rest, i, g =>
      match batchExn i with
      | some _ => (g, [i])
      | none =>
          let r := submit_batches batchExn resp exc rest (i + 1)
            (run_batch_callbacks resp exc b g)
          (r.1, i :: r.2)

/-- C8: on a per-request failure the hostname is appended to the retry queue
iff the error text matches a throttling signature (`"Rate Limit Exceeded"` or
`"Quota exceeded"` as substrings); other failures leave both accumulators
untouched (terminal, only logged), and a success never touches the retry
queue. -/
theorem retry_classification (g : GState) (request_id response e : String)
    (hfresh : request_id ∉ g.retry_list) :
    (request_id ∈ (delete_instances_cb request_id response (some e) g).retry_list
        ↔ isThrottleErr e = true)
      ∧ (delete_instances_cb request_id response (some e) g).operations = g.operations
      ∧ (delete_instances_cb request_id response none g).retry_list = g.retry_list := by
  unfold delete_instances_cb
  by_cases ht : isThrottleErr e = true
  · simp [ht]
  · simp [ht, hfresh]

/-- Witness for C8: a quota error is queued for retry, while the operations
map is untouched and a success leaves the retry queue alone. -/
theorem retry_classification_witness :
    "n0" ∉ (GState.mk [] []).retry_list
      ∧ (("n0" ∈ (delete_instances_cb "n0" "" (some "Quota exceeded for CPUS")
            (GState.mk [] [])).retry_list
          ↔ isThrottleErr "Quota exceeded for CPUS" = true)
        ∧ (delete_instances_cb "n0" "" (some "Quota exceeded for CPUS")
            (GState.mk [] [])).operations = (GState.mk [] []).operations
        ∧ (delete_instances_cb "n0" "" none (GState.mk [] [])).retry_list
            = (GState.mk [] []).retry_list) :=
  ⟨by decide, retry_classification (GState.mk [] []) "n0" "" "Quota exceeded for CPUS"
    (by decide)⟩

/-- C2 counterexample: with two batches and the transport raising on the
first one, the second batch is never submitted — the `try/except` around the
whole submission loop means a batch-level exception does abort the remaining
batches, contradicting the claim that they are still submitted. -/
theorem batch_abort_counterexample :
    ¬ ((submit_batches (fun i => if i = 0 then some "connection reset" else none)
          (fun _ => "op") (fun _ => none)
          [[DeleteReq.mk "a" "z"], [DeleteReq.mk "b" "z"]] 0 (GState.mk [] [])).2
        = List.range 2) := by
  decide

theorem submit_batches_attempted (batchExn : Nat → Option String)
    (resp : String → String) (exc : String → Option String) :
    ∀ (bs : List (List DeleteReq)) (i : Nat) (g : GState) (j : Nat),
      j ∈ (submit_batches batchExn resp exc bs i g).2
        ↔ i ≤ j ∧ j < i + bs.length ∧ ∀ m, i ≤ m → m < j → batchExn m = none
  | [], i, g, j => by
      simp only [submit_batches, List.not_mem_nil, false_iff, List.length_nil, Nat.add_zero]
      rintro ⟨h1, h2, -⟩
      omega
  | b :: rest, i, g, j => by
      unfold submit_batches
      cases hexn : batchExn i with
      | some e =>
          simp only [List.mem_singleton, List.length_cons]
          constructor
          · rintro rfl
            exact ⟨le_refl j, by omega, fun m h1 h2 => absurd h1 (by omega)⟩
          · rintro ⟨h1, h2, h3⟩
            by_contra hne
            have : batchExn i = none := h3 i le_rfl (by omega)
            rw [hexn] at this
            exact Option.noConfusion this
      | none =>
          simp only [List.mem_cons, List.length_cons,
            submit_batches_attempted batchExn resp exc rest (i + 1)
              (run_batch_callbacks resp exc b g) j]
          constructor
          · rintro (rfl | ⟨h1, h2, h3⟩)
            · exact ⟨le_refl j, by omega, fun m hm1 hm2 => absurd hm1 (by omega)⟩
            · refine ⟨by omega, by omega, fun m hm1 hm2 => ?_⟩
              rcases Nat.eq_or_lt_of_le hm1 with rfl | hlt
              · exact hexn
              · exact h3 m hlt hm2
          · rintro ⟨h1, h2, h3⟩
            rcases Nat.eq_or_lt_of_le h1 with rfl | hlt
            · exact Or.inl rfl
            · exact Or.inr ⟨hlt, by omega, fun m hm1 hm2 => h3 m (by omega) hm2⟩

/-- C2 amended: a batch is submitted iff no earlier batch of the same
invocation raised; the batch on which `ensure_execute` raises is the last one
attempted, and the exception (caught and logged outside the loop) aborts the
submission of all later batches. -/
theorem batch_abort_amended (batchExn : Nat → Option String)
    (resp : String → String) (exc : String → Option String)
    (bs : List (List DeleteReq)) (g : GState) (j : Nat) :
    j ∈ (submit_batches batchExn resp exc bs 0 g).2
      ↔ j < bs.length ∧ ∀ m, m < j → batchExn m = none := by
  rw [submit_batches_attempted]
  constructor
  · rintro ⟨_, h2, h3⟩
    exact ⟨by omega, fun m hm => h3 m (Nat.zero_le m) hm⟩
  · rintro ⟨h1, h2⟩
    exact ⟨Nat.zero_le j, by omega, fun m _ hm => h2 m hm⟩

/-- Witness for C2's amended claim at a concrete input: with the transport
raising on batch 0, batch 0 is attempted and batch 1 is not. -/
theorem batch_abort_amended_witness :
    (0 ∈ (submit_batches (fun i => if i = 0 then some "connection reset" else none)
          (fun _ => "op") (fun _ => none)
          [[DeleteReq.mk "a" "z"], [DeleteReq.mk "b" "z"]] 0 (GState.mk [] [])).2
        ↔ (0 < 2 ∧ ∀ m, m < 0 →
            (fun i => if i = 0 then some "connection reset" else none) m = none))
      ∧ ¬ (1 ∈ (submit_batches (fun i => if i = 0 then some "connection reset" else none)
          (fun _ => "op") (fun _ => none)
          [[DeleteReq.mk "a" "z"], [DeleteReq.mk "b" "z"]] 0 (GState.mk [] [])).2) := by
  refine ⟨batch_abort_amended _ _ _ _ _ 0, ?_⟩
  rw [batch_abort_amended]
  rintro ⟨-, h⟩
  have := h 0 Nat.zero_lt_one
  simp at this

/-- The retry loop of `main` (suspend.py lines 178–186):
`while True: delete_instances(…); if not len(retry_list): break;
node_list = list(retry_list); del retry_list[:]`. `f round nodes` is what one
invocation of `delete_instances` appends to the global `retry_list` in the
given round; `retry_q` is the content of the queue when the round starts
(empty in `main`, since nothing appends before the loop). Fuel bounds the
recursion: `none` means the loop is still running after `fuel` rounds; `some
calls` returns the successive node lists `delete_instances` was invoked
with. -/
def suspend_retry_loop (f : Nat → List String → List String) :
    Nat → Nat → List String → List String → Option (List (List String))
  | 0, _, _, _ => none
  | fuel + 1, round, nodes, retry_q =>
      if (retry_q ++ f round nodes).isEmpty then some [nodes]
      else
        match suspend_retry_loop f fuel (round + 1) (retry_q ++ f round nodes) [] with
        | none => none
        | some calls => some (nodes :: calls)

/-- Specification-side description of a run of the retry loop: the rounds
call the delete routine first on the input list and then on exactly the
hostnames the previous round queued for retry, and the run ends exactly when
a round queues nothing. -/
def isRetryTrace (f : Nat → List String → List String) :
    Nat → List String → List (List String) → Prop
  | _, _, [] => False
  | round, nodes, [c] => c = nodes ∧ f round nodes = []
  | round, nodes, c :: c' :: rest =>
      c = nodes ∧ f round nodes ≠ []
        ∧ isRetryTrace f (round + 1) (f round nodes) (c' :: rest)

theorem suspend_retry_loop_trace (f : Nat → List String → List String) :
    ∀ (fuel round : Nat) (nodes : List String) (calls : List (List String)),
      suspend_retry_loop f fuel round nodes [] = some calls →
        isRetryTrace f round nodes calls
  | 0, round, nodes, calls => by
      intro h
      exact Option.noConfusion h
  | fuel + 1, round, nodes, calls => by
      intro h
      unfold suspend_retry_loop at h
      simp only [List.nil_append] at h
      by_cases hq : (f round nodes).isEmpty = true
      · rw [if_pos hq] at h
        obtain rfl : [nodes] = calls := Option.some.inj h
        exact ⟨rfl, List.isEmpty_iff.mp hq⟩
      · rw [if_neg hq] at h
        cases hrec : suspend_retry_loop f fuel (round + 1) (f round nodes) [] with
        | none => rw [hrec] at h; exact Option.noConfusion h
        | some calls' =>
            rw [hrec] at h
            obtain rfl : nodes :: calls' = calls := Option.some.inj h
            have htrace := suspend_retry_loop_trace f fuel (round + 1) (f round nodes)
              calls' hrec
            cases calls' with
            | nil => exact absurd htrace (by simp [isRetryTrace])
            | cons c' rest =>
                exact ⟨rfl, fun hnil => hq (by simp [hnil]), htrace⟩

theorem suspend_retry_loop_unbounded (f : Nat → List String → List String)
    (hf : ∀ r l, f r l ≠ []) :
    ∀ (fuel round : Nat) (nodes retry_q : List String),
      suspend_retry_loop f fuel round nodes retry_q = none
  | 0, _, _, _ => rfl
  | fuel + 1, round, nodes, retry_q => by
      unfold suspend_retry_loop
      have hq : (retry_q ++ f round nodes).isEmpty = false := by
        cases h : (retry_q ++ f round nodes).isEmpty
        · rfl
        · exact absurd (List.append_eq_nil.mp (List.isEmpty_iff.mp h)).2 (hf round nodes)
      rw [hq]
      simp only [Bool.false_eq_true, if_false]
      rw [suspend_retry_loop_unbounded f hf fuel (round + 1) (retry_q ++ f round nodes) []]

/-- C5: whenever the retry loop of `main` terminates, its rounds invoked the
delete routine first with the input list and then with exactly the hostnames
queued for retry by the previous round (the shared queue being cleared before
each re-invocation), stopping exactly when a round queued nothing; and no
maximum round count is enforced — under sustained throttling the loop is
still running after any number of rounds. -/
theorem retry_loop_spec (f : Nat → List String → List String)
    (nodes : List String) (fuel : Nat) :
    (∀ calls, suspend_retry_loop f fuel 0 nodes [] = some calls →
        isRetryTrace f 0 nodes calls)
      ∧ ((∀ r l, f r l ≠ []) → suspend_retry_loop f fuel 0 nodes [] = none) :=
  ⟨fun calls h => suspend_retry_loop_trace f fuel 0 nodes calls h,
   fun hf => suspend_retry_loop_unbounded f hf fuel 0 nodes []⟩

/-- Witness for C5: a run that stops immediately (no throttling) yields the
one-round trace, and a permanently-throttling oracle keeps the loop running
past any fuel. -/
theorem retry_loop_spec_witness :
    isRetryTrace (fun _ _ => ([] : List String)) 0 ["n0"] [["n0"]]
      ∧ suspend_retry_loop (fun _ _ => ["n0"]) 5 0 ["n0"] [] = none :=
  ⟨(retry_loop_spec (fun _ _ => []) ["n0"] 1).1 [["n0"]] rfl,
   (retry_loop_spec (fun _ _ => ["n0"]) ["n0"] 5).2 (fun _ _ => by decide)⟩

/-- `PLACEMENT_MAX_CNT = 22` (local constant of `delete_placement_groups`). -/
def PLACEMENT_MAX_CNT : Nat := 22

/-- The deterministic placement-group name
`f-string cluster_name "-" job_id "-" pg_index`. -/
def pgName (cluster jobId : String) (k : Nat) : String :=
  s!"{cluster}-{jobId}-{k}"

/-- One iteration of the naming loop of `delete_placement_groups` (suspend.py
lines 123–130): indices `i` with `i % PLACEMENT_MAX_CNT != 0` are skipped,
otherwise `pg_index` is bumped and a delete is issued for the derived name. -/
def pgStep (cluster jobId : String) (acc : List String × Nat) (i : Nat) :
    List String × Nat :=
  if i % PLACEMENT_MAX_CNT ≠ 0 then acc
  else (acc.1 ++ [pgName cluster jobId (acc.2 + 1)], acc.2 + 1)

/-- The placement-group names `delete_placement_groups` issues deletes for,
given the node-list length. -/
def delete_placement_groups_names (cluster jobId : String) (n : Nat) : List String :=
  ((List.range n).foldl (pgStep cluster jobId) ([], 0)).1

theorem pg_fold_spec (cluster jobId : String) :
    ∀ n : Nat,
      (List.range n).foldl (pgStep cluster jobId) ([], 0)
        = ((List.range ((n + PLACEMENT_MAX_CNT - 1) / PLACEMENT_MAX_CNT)).map
            (fun k => pgName cluster jobId (k + 1)),
           (n + PLACEMENT_MAX_CNT - 1) / PLACEMENT_MAX_CNT)
  | 0 => by simp [PLACEMENT_MAX_CNT]
  | n + 1 => by
      rw [List.range_succ, List.foldl_append, pg_fold_spec cluster jobId n]
      simp only [List.foldl_cons, List.foldl_nil, pgStep]
      by_cases hmod : n % PLACEMENT_MAX_CNT ≠ 0
      · rw [if_pos hmod]
        have hcnt : (n + 1 + PLACEMENT_MAX_CNT - 1) / PLACEMENT_MAX_CNT
            = (n + PLACEMENT_MAX_CNT - 1) / PLACEMENT_MAX_CNT := by
          simp only [PLACEMENT_MAX_CNT] at *
          omega
        rw [hcnt]
      · rw [if_neg hmod]
        have hcnt : (n + 1 + PLACEMENT_MAX_CNT - 1) / PLACEMENT_MAX_CNT
            = (n + PLACEMENT_MAX_CNT - 1) / PLACEMENT_MAX_CNT + 1 := by
          simp only [PLACEMENT_MAX_CNT] at *
          omega
        rw [hcnt, List.range_succ, List.map_append]
        simp

/-- The number of placement-group deletes issued by the loop is
`ceil(n / PLACEMENT_MAX_CNT)`. -/
theorem pg_names_length (cluster jobId : String) (n : Nat) :
    (delete_placement_groups_names cluster jobId n).length
      = (n + PLACEMENT_MAX_CNT - 1) / PLACEMENT_MAX_CNT := by
  unfold delete_placement_groups_names
  rw [pg_fold_spec]
  simp

/-- The gate in `main` (suspend.py lines 199–203): placement cleanup runs only
when the invocation is job-triggered, the definition enables placement, the
machine family is `c2`, and more than one node is involved. `d` is the
instance definition of the first node's partition. -/
def main_pg_deletes (cluster : String) (d : InstanceDef) (jid : Option String)
    (node_list : List String) : List String :=
  match jid with
  | none => []
  | some j =>
      if d.enable_placement && ((pySplit d.machine_type '-').headD "" == "c2")
          && decide (1 < node_list.length) then
        delete_placement_groups_names cluster j node_list.length
      else []

/-- C6: for a job-triggered run on a placement-enabled `c2` definition, the
number of placement-group deletions equals `ceil(N / 22)` — except `N = 1`,
where the `len(node_list) > 1` gate yields zero — and each issued name is
deterministically `cluster-jobid-index`. -/
theorem placement_group_count (cluster : String) (d : InstanceDef) (j : String)
    (nodes : List String)
    (hp : d.enable_placement = true)
    (hm : (pySplit d.machine_type '-').headD "" = "c2") :
    (main_pg_deletes cluster d (some j) nodes).length
        = (if nodes.length = 1 then 0
           else (nodes.length + PLACEMENT_MAX_CNT - 1) / PLACEMENT_MAX_CNT)
      ∧ main_pg_deletes cluster d (some j) nodes
          = (if 1 < nodes.length then
              (List.range ((nodes.length + PLACEMENT_MAX_CNT - 1) / PLACEMENT_MAX_CNT)).map
                (fun k => pgName cluster j (k + 1))
             else []) := by
  unfold main_pg_deletes
  by_cases hlen : 1 < nodes.length
  · have hgate : (d.enable_placement && ((pySplit d.machine_type '-').headD "" == "c2")
        && decide (1 < nodes.length)) = true := by
      rw [hp, hm]
      simp [hlen]
    simp only [hgate, if_true]
    constructor
    · rw [pg_names_length, if_neg (by omega)]
    · rw [if_pos hlen]
      unfold delete_placement_groups_names
      rw [pg_fold_spec]
  · have hgate : (d.enable_placement && ((pySplit d.machine_type '-').headD "" == "c2")
        && decide (1 < nodes.length)) = false := by
      simp [hlen]
    simp only [hgate, Bool.false_eq_true, if_false, List.length_nil]
    constructor
    · by_cases h1 : nodes.length = 1
      · rw [if_pos h1]
      · rw [if_neg h1]
        have h0 : nodes.length = 0 := by omega
        rw [h0]
        decide
    · rw [if_neg hlen]

/-- Witness for C6: three nodes in one group — one deletion, named
`clus-7-1`. -/
theorem placement_group_count_witness :
    (main_pg_deletes "clus" exclDef (some "7") ["a", "b", "c"]).length
        = (if (["a", "b", "c"] : List String).length = 1 then 0
           else ((["a", "b", "c"] : List String).length + PLACEMENT_MAX_CNT - 1)
                  / PLACEMENT_MAX_CNT)
      ∧ main_pg_deletes "clus" exclDef (some "7") ["a", "b", "c"]
          = (if 1 < (["a", "b", "c"] : List String).length then
              (List.range (((["a", "b", "c"] : List String).length
                  + PLACEMENT_MAX_CNT - 1) / PLACEMENT_MAX_CNT)).map
                (fun k => pgName "clus" "7" (k + 1))
             else []) :=
  placement_group_count "clus" exclDef "7" ["a", "b", "c"] (by decide) (by decide)

/-- The issuing loop of `delete_placement_groups` (suspend.py lines 123–130):
`compute.resourcePolicies().delete(…).execute()` is called per group name with
no surrounding `try`, so the first raising call ends the loop (and the
routine) right there. `execOk nm = false` models `execute()` raising for the
group `nm`. Returns the names on which `execute` was invoked and whether the
loop was aborted by an exception. -/
def pg_delete_attempts (execOk : String → Bool) : List String → List String × Bool
  | [] => ([], false)
  | nm :: rest =>
      if execOk nm then
        ((pg_delete_attempts execOk rest).1.cons nm, (pg_delete_attempts execOk rest).2)
      else ([nm], true)

/-- `delete_placement_groups` as a whole (suspend.py lines 117–133): issue the
deletes, then `wait_for_operation` on each (also unguarded — a failing wait
raises out of the routine). Returns the delete attempts and whether an
exception escaped the routine. -/
def delete_placement_groups_run (execOk waitOk : String → Bool)
    (cluster jobId : String) (n : Nat) : List String × Bool :=
  if (pg_delete_attempts execOk (delete_placement_groups_names cluster jobId n)).2 then
    pg_delete_attempts execOk (delete_placement_groups_names cluster jobId n)
  else
    ((pg_delete_attempts execOk (delete_placement_groups_names cluster jobId n)).1,
     (delete_placement_groups_names cluster jobId n).any (fun nm => !waitOk nm))

/-- C3 counterexample: a job with 23 nodes has two placement groups; when
deleting the first group raises, the second group's delete is never attempted
and the exception escapes the routine — refuting partial-failure isolation. -/
theorem pg_isolation_counterexample :
    ¬ ((delete_placement_groups_run (fun nm => !(nm == "clus-7-1")) (fun _ => true)
          "clus" "7" 23).1
        = delete_placement_groups_names "clus" "7" 23
      ∧ (delete_placement_groups_run (fun nm => !(nm == "clus-7-1")) (fun _ => true)
          "clus" "7" 23).2 = false) := by
  decide

theorem pg_delete_attempts_eq (execOk : String → Bool) :
    ∀ l : List String,
      pg_delete_attempts execOk l
        = (l.takeWhile execOk ++ (l.dropWhile execOk).take 1,
           !(l.dropWhile execOk).isEmpty)
  | [] => rfl
  | nm :: rest => by
      unfold pg_delete_attempts
      by_cases h : execOk nm = true
      · rw [if_pos h, pg_delete_attempts_eq execOk rest,
          List.takeWhile_cons_of_pos h, List.dropWhile_cons_of_pos h]
        rfl
      · rw [if_neg h, List.takeWhile_cons_of_neg (by simpa using h),
          List.dropWhile_cons_of_neg (by simpa using h)]
        simp

/-- C3 amended: placement-group deletion has no partial-failure isolation —
when every delete succeeds, all groups are attempted and the routine aborts
only if some wait fails; as soon as one group's delete raises, the routine
stops at that group (later groups are not attempted) and the exception
escapes. -/
theorem pg_abort_on_failure (execOk waitOk : String → Bool)
    (cluster jobId : String) (n : Nat) :
    ((∀ nm ∈ delete_placement_groups_names cluster jobId n, execOk nm = true) →
        delete_placement_groups_run execOk waitOk cluster jobId n
          = (delete_placement_groups_names cluster jobId n,
             (delete_placement_groups_names cluster jobId n).any (fun nm => !waitOk nm)))
      ∧ (∀ nm ∈ delete_placement_groups_names cluster jobId n, execOk nm = false →
          (delete_placement_groups_run execOk waitOk cluster jobId n).2 = true
            ∧ (delete_placement_groups_run execOk waitOk cluster jobId n).1
                = (delete_placement_groups_names cluster jobId n).takeWhile execOk
                    ++ ((delete_placement_groups_names cluster jobId n).dropWhile
                          execOk).take 1) := by
  constructor
  · intro hall
    have hdrop : (delete_placement_groups_names cluster jobId n).dropWhile execOk = [] := by
      rw [List.dropWhile_eq_nil_iff]
      exact hall
    unfold delete_placement_groups_run
    rw [pg_delete_attempts_eq, hdrop]
    simp only [List.isEmpty_nil, Bool.not_true, Bool.false_eq_true, if_false, List.take_nil,
      List.append_nil]
    rw [List.takeWhile_eq_self_iff.mpr hall]
  · intro nm hmem hfail
    have hdrop : (delete_placement_groups_names cluster jobId n).dropWhile execOk ≠ [] := by
      rw [Ne, List.dropWhile_eq_nil_iff]
      intro hall
      rw [hall nm hmem] at hfail
      exact Bool.noConfusion hfail
    unfold delete_placement_groups_run
    rw [pg_delete_attempts_eq]
    have hempty : ((delete_placement_groups_names cluster jobId n).dropWhile
        execOk).isEmpty = false := by
      cases h : ((delete_placement_groups_names cluster jobId n).dropWhile execOk).isEmpty
      · rfl
      · exact absurd (List.isEmpty_iff.mp h) hdrop
    rw [hempty]
    simp

/-- Witness for C3's amended claim: with every delete succeeding (and the
waits too), both groups of a 23-node job are attempted and nothing aborts. -/
theorem pg_abort_on_failure_witness :
    (∀ nm ∈ delete_placement_groups_names "clus" "7" 23,
        (fun _ : String => true) nm = true)
      ∧ delete_placement_groups_run (fun _ => true) (fun _ => true) "clus" "7" 23
          = (delete_placement_groups_names "clus" "7" 23,
             (delete_placement_groups_names "clus" "7" 23).any (fun _ => !true)) :=
  ⟨fun _ _ => rfl,
   (pg_abort_on_failure (fun _ => true) (fun _ => true) "clus" "7" 23).1
     (fun _ _ => rfl)⟩

/-- Modelled from the spec: `util.partition` (util.py is not in this tree).
`node_list, tpu_node_list = partition(node_list, pred)` separates the list so
that accelerator nodes (those satisfying the predicate) go to the accelerator
path and the remaining nodes go to the delete batcher, preserving order. -/
def util_partition (l : List String) (p : String → Bool) :
    List String × List String :=
  (l.filter (fun x => !p x), l.filter p)

/-- `bool(cfg.instance_defs[pid].tpu_type)`: a node is accelerator-backed when
its definition's `tpu_type` is truthy (non-empty). -/
def isTpuNode (cfg : Cfg) (n : String) : Bool :=
  !((cfg.instance_defs (cfg.get_pid n)).tpu_type == "")

/-- The accelerator nodes of an invocation (second component of the
partition at suspend.py lines 161–164). -/
def tpuNodes (cfg : Cfg) (input : List String) : List String :=
  (util_partition input (isTpuNode cfg)).2

/-- The non-accelerator nodes handed to `delete_instances`. -/
def nonTpuNodes (cfg : Cfg) (input : List String) : List String :=
  (util_partition input (isTpuNode cfg)).1

/-- The nodes `delete_instances` identifies as already absent: they reach the
regional lookup (not skipped by the exclusive guard) and the inventory does
not know them (suspend.py lines 84–87). -/
def absentSkippedNodes (cfg : Cfg) (lookup : String → Option Instance)
    (jid : Option String) (input : List String) : List String :=
  (nonTpuNodes cfg input).filter (fun n =>
    !(!jid.isSome && (cfg.instance_defs (cfg.get_pid n)).exclusive)
      && (cfg.instance_defs (cfg.get_pid n)).regional_capacity
      && (lookup n).isNone)

/-- The nodes skipped by the exclusive guard on a non-job-triggered
invocation (suspend.py lines 77–80). -/
def exclSkippedNodes (cfg : Cfg) (jid : Option String) (input : List String) :
    List String :=
  (nonTpuNodes cfg input).filter (fun n =>
    !jid.isSome && (cfg.instance_defs (cfg.get_pid n)).exclusive)

/-- C7 counterexample: on a non-job-triggered invocation, a single exclusive
(non-accelerator, zonal) node is neither routed to the accelerator path, nor
batched, nor identified as already absent — so accelerator ∪ batched does not
equal input minus absent, refuting the claim as stated. -/
theorem routing_union_counterexample :
    ¬ (∀ n, n ∈ (["clus-px-0"] : List String) ↔
        (n ∈ tpuNodes cfg0 ["clus-px-0"]
          ∨ n ∈ batchedNodes cfg0 lk0 none (nonTpuNodes cfg0 ["clus-px-0"])
          ∨ n ∈ absentSkippedNodes cfg0 lk0 none ["clus-px-0"])) := by
  intro h
  have := (h "clus-px-0").mp (by decide)
  revert this
  decide

/-- C7 amended: for every invocation, the accelerator nodes, the batched
nodes, the nodes identified as already absent, and the nodes skipped by the
exclusive guard on non-job-triggered invocations together cover exactly the
input list; and an accelerator-backed node never appears in any batch. -/
theorem routing_union_amended (cfg : Cfg) (lookup : String → Option Instance)
    (jid : Option String) (input : List String) (n : String) :
    (n ∈ input ↔
        (n ∈ tpuNodes cfg input
          ∨ n ∈ batchedNodes cfg lookup jid (nonTpuNodes cfg input)
          ∨ n ∈ absentSkippedNodes cfg lookup jid input
          ∨ n ∈ exclSkippedNodes cfg jid input))
      ∧ (n ∈ batchedNodes cfg lookup jid (nonTpuNodes cfg input) →
          isTpuNode cfg n = false) := by
  have hbatched : n ∈ batchedNodes cfg lookup jid (nonTpuNodes cfg input)
      ↔ n ∈ input ∧ isTpuNode cfg n = false ∧ shouldDelete cfg lookup jid n = true := by
    rw [batchedNodes_eq_filter]
    unfold nonTpuNodes util_partition
    simp only [List.mem_filter, Bool.not_eq_true']
    tauto
  refine ⟨?_, fun h => (hbatched.mp h).2.1⟩
  rw [hbatched]
  unfold tpuNodes absentSkippedNodes exclSkippedNodes nonTpuNodes util_partition
  simp only [List.mem_filter, Bool.not_eq_true']
  unfold shouldDelete
  cases ht : isTpuNode cfg n <;>
    cases hj : jid.isSome <;>
      cases he : (cfg.instance_defs (cfg.get_pid n)).exclusive <;>
        cases hr : (cfg.instance_defs (cfg.get_pid n)).regional_capacity <;>
          cases hm : (lookup n).isNone <;>
            simp [ht, hj, he, hr, hm]

/-- Witness for C7's amended claim at a concrete input: an exclusive node, a
TPU node, a plain node and a missing regional node are each covered by
exactly the expected category. -/
theorem routing_union_amended_witness :
    (("clus-p-0" : String) ∈ (["clus-px-0", "clus-pt-1", "clus-p-0", "clus-pr-2"] : List String) ↔
        (("clus-p-0" : String) ∈ tpuNodes cfg0 ["clus-px-0", "clus-pt-1", "clus-p-0", "clus-pr-2"]
          ∨ ("clus-p-0" : String) ∈ batchedNodes cfg0 lk0 none
              (nonTpuNodes cfg0 ["clus-px-0", "clus-pt-1", "clus-p-0", "clus-pr-2"])
          ∨ ("clus-p-0" : String) ∈ absentSkippedNodes cfg0 lk0 none
              ["clus-px-0", "clus-pt-1", "clus-p-0", "clus-pr-2"]
          ∨ ("clus-p-0" : String) ∈ exclSkippedNodes cfg0 none
              ["clus-px-0", "clus-pt-1", "clus-p-0", "clus-pr-2"]))
      ∧ (("clus-p-0" : String) ∈ batchedNodes cfg0 lk0 none
            (nonTpuNodes cfg0 ["clus-px-0", "clus-pt-1", "clus-p-0", "clus-pr-2"]) →
          isTpuNode cfg0 "clus-p-0" = false) :=
  routing_union_amended cfg0 lk0 none ["clus-px-0", "clus-pt-1", "clus-p-0", "clus-pr-2"]
    "clus-p-0"

/-- The post-deletion re-admission loop of `main` (suspend.py lines 188–195):
`for operation in operations.values(): try: wait_for_operation(…);
run(f"{SCONTROL} update node={arg_nodes} state=resume") except: log`.
`waitOk` tells whether waiting on an operation reaches terminal success (a
terminal error raises inside the `try` and is only logged). Returns the
node expressions handed to `scontrol … state=resume`, one per successful
operation; note the command names `arg_nodes`, the whole original node
expression of the invocation, not the operation's own node. -/
def resume_after_wait (arg_nodes : String) (waitOk : String → Bool)
    (ops : List (String × String)) : List String :=
  ops.filterMap (fun kv => if waitOk kv.2 then some arg_nodes else none)

/-- C1: evaluation at the failing input. Two nodes were deleted in this
invocation (`arg_nodes = "c-p-0,c-p-1"`); node `c-p-0`'s operation reaches
terminal success and node `c-p-1`'s operation fails its wait. The code then
issues exactly one resume, and that resume names the whole expression
`"c-p-0,c-p-1"` — re-admitting `c-p-1` as well — instead of re-admitting only
`c-p-0` as the per-node contract requires. -/
theorem resume_targets_whole_nodelist :
    resume_after_wait "c-p-0,c-p-1" (fun op => op == "op0")
        [("c-p-0", "op0"), ("c-p-1", "op1")]
      = ["c-p-0,c-p-1"] := by
  decide

/-- An externally visible action of one invocation of `main`: a scheduler
state update (`scontrol update node=… state=…`), a synchronous accelerator
deletion (`gcloud … tpus tpu-vm delete`), a delete request added to a batch,
or a placement-group delete. -/
inductive Effect where
  | scontrolUpdate (nodes state : String)
  | tpuDelete (node zone : String)
  | deleteRequest (node zone : String)
  | pgDelete (name : String)
  deriving DecidableEq, Repr

/-- The environment of one invocation: the regional inventory, the per-round
per-request responses/exceptions, the per-round batch-level exceptions, and
the outcomes of the operation waits and the placement-group calls. -/
structure MainEnv where
  lookup : String → Option Instance
  resp : String → String
  exc : Nat → String → Option String
  batchExn : Nat → Nat → Option String
  waitOk : String → Bool
  pgExecOk : String → Bool
  pgWaitOk : String → Bool

/-- The retry loop of `main` over the real `delete_instances` (suspend.py
lines 178–186), threading the global state: each round builds the batches for
the current node list, submits them (callbacks updating `operations` and
`retry_list`), and the loop exits when `retry_list` is empty; otherwise the
next round runs on a copy of `retry_list`, which is cleared. Returns the final
global state, the final `node_list` binding, and the delete requests
constructed, or `none` when `fuel` rounds were not enough. -/
def rounds_run (cfg : Cfg) (env : MainEnv) (jid : Option String) :
    Nat → Nat → List String → GState → Option (GState × List String × List Effect)
  | 0, _, _, _ => none
  | fuel + 1, round, nodes, g =>
      match (submit_batches (env.batchExn round) env.resp (env.exc round)
          (delete_instances_batches cfg env.lookup jid nodes) 0 g).1 with
      | g' =>
          if g'.retry_list.isEmpty then
            some (g', nodes,
              ((delete_instances_batches cfg env.lookup jid nodes).flatten).map
                (fun r => Effect.deleteRequest r.node r.zone))
          else
            match rounds_run cfg env jid fuel (round + 1) g'.retry_list
                (GState.mk g'.operations []) with
            | none => none
            | some (gf, nf, effs') =>
                some (gf, nf,
                  (((delete_instances_batches cfg env.lookup jid nodes).flatten).map
                    (fun r => Effect.deleteRequest r.node r.zone)) ++ effs')

/-- `main(arg_nodes, arg_job_id)` (suspend.py lines 137–207) as an effect
trace. `node_list` is the expansion of `arg_nodes` returned by
`scontrol show hostnames`. `none` models a run that does not complete: an
empty node list (`node_list[0]` raises `IndexError`) or a retry loop still
running after `fuel` rounds. The trace records, in program order: the
`down`/`power_down` updates of a job-triggered run, the accelerator
deletions, the batched delete requests of every round, the `resume` updates
issued after successful operation waits, and the placement-group deletes
attempted. -/
def main_model (cfg : Cfg) (env : MainEnv) (fuel : Nat) (arg_nodes : String)
    (node_list : List String) (arg_job_id : Option String) : Option (List Effect) :=
  match node_list with
  | [] => none
  | n0 :: rest =>
      if arg_job_id.isSome && !(cfg.instance_defs (cfg.get_pid n0)).exclusive then
        some []
      else
        match rounds_run cfg env arg_job_id fuel 0
            (nonTpuNodes cfg (n0 :: rest)) (GState.mk [] []) with
        | none => none
        | some (g, finalNodes, batchEffs) =>
            some
              ((if arg_job_id.isSome then
                  [Effect.scontrolUpdate arg_nodes "down",
                   Effect.scontrolUpdate arg_nodes "power_down"]
                else [])
                ++ (tpuNodes cfg (n0 :: rest)).map
                    (fun n => Effect.tpuDelete n
                      (cfg.instance_defs (cfg.get_pid n)).zone)
                ++ batchEffs
                ++ (if arg_job_id.isSome then
                      (resume_after_wait arg_nodes env.waitOk g.operations).map
                        (fun expr => Effect.scontrolUpdate expr "resume")
                    else [])
                ++ ((pg_delete_attempts env.pgExecOk
                      (main_pg_deletes cfg.cluster_name
                        (cfg.instance_defs (cfg.get_pid n0)) arg_job_id
                        finalNodes)).1.map Effect.pgDelete))

/-- An environment for witnesses: nothing is regional, no request and no
batch fails, every wait and every placement call succeeds. -/
def env0 : MainEnv :=
  MainEnv.mk lk0 (fun _ => "op") (fun _ _ => none) (fun _ _ => none)
    (fun _ => true) (fun _ => true) (fun _ => true)

/-- C10: on a job-triggered invocation whose first expanded node has a
non-exclusive partition definition, `main` returns before doing anything:
no scheduler state update and no delete request is issued for any node in the
list, whatever the rest of the list contains. -/
theorem job_nonexclusive_early_return (cfg : Cfg) (env : MainEnv) (fuel : Nat)
    (arg_nodes : String) (n0 : String) (rest : List String) (j : String)
    (hne : (cfg.instance_defs (cfg.get_pid n0)).exclusive = false) :
    main_model cfg env fuel arg_nodes (n0 :: rest) (some j) = some [] := by
  simp [main_model, hne]

/-- Witness for C10: a two-node list whose first node is non-exclusive and
whose second node is exclusive still yields the empty trace. -/
theorem job_nonexclusive_early_return_witness :
    (cfg0.instance_defs (cfg0.get_pid "clus-p-0")).exclusive = false
      ∧ main_model cfg0 env0 1 "clus-p-[0,5]" ["clus-p-0", "clus-px-5"] (some "7")
          = some [] :=
  ⟨by decide,
   job_nonexclusive_early_return cfg0 env0 1 "clus-p-[0,5]" "clus-p-0" ["clus-px-5"]
     "7" (by decide)⟩

end Suspend
